import Mathlib

/-!
# Contact-manager backend: shallow embedding of `src/backend/main.py`

The repository is a FastAPI contact-management CRUD service backed by a
SQLite table of contacts, with an email-verification enrichment step
(Hunter.io) on create and on email-changing updates.

This file embeds the core flow of `src/backend/main.py`:

* `verify_email_hunter` (lines 99-127): the verification client, modelled as
  a pure function of the configured API key and of the outcome of the single
  external HTTP attempt.  The outcome space (`HunterOutcome`) covers every
  exit of the Python `try` block: an HTTP-success response whose parsed body
  yields a `data` object with or without a `score` field, an HTTP-success
  response where `response.json()` or `data['data']` raises (empty or
  malformed body — caught by the bare `except Exception`), an
  `httpx.HTTPStatusError`, an `httpx.RequestError`, and any other exception.
* The contact store: the SQLite `contacts` table is a `List Contact`
  together with the autoincrement counter `nextId`.
* The endpoint handlers `create_contact`, `read_contacts`, `read_contact`,
  `update_contact_put`, `update_contact_patch`, `delete_contact`
  (lines 191-358), each as a pure function from the request data, the
  verification inputs and the store state to the emitted external
  verification requests, the HTTP result, and the resulting store state
  (on an `HTTPException` the scoped session commits nothing, so the state
  component is returned unchanged).

Request bodies are modelled after the pydantic schemas `ContactCreate` and
`ContactUpdate` (lines 75-86): neither schema declares a `hunter_score`
field, and pydantic's default config ignores unknown keys of the request
body, so a client-supplied `hunter_score` never reaches the handlers.  In
`ContactUpdate` an `Option` field models presence in the request
(`model_dump(exclude_unset := True)` at line 319 keeps exactly the fields
the client sent).
-/

namespace ContactManager

/-- The `status` strings produced by `verify_email_hunter`
(`"mocked_key"`, `"verified"`, `"api_error"`, `"network_error"`,
`"unexpected_error"`). -/
inductive VStatus where
  | mocked_key
  | verified
  | api_error
  | network_error
  | unexpected_error
  deriving DecidableEq, Repr

/-- Outcome of the one external HTTP attempt inside the `try` block of
`verify_email_hunter` (main.py lines 109-127).

* `success d` : `client.get` returned and `raise_for_status` did not raise.
  `d = some (some s)` — the parsed body has a `data` object with `score = s`;
  `d = some none` — the body has a `data` object without a `score` field
  (so `data['data'].get('score', 50)` yields the default 50);
  `d = none` — `response.json()` or the subscript `data['data']` raises
  (no `data` key, or unparseable body), which falls through to the bare
  `except Exception` branch.
* `httpStatusError` : `raise_for_status` raised `httpx.HTTPStatusError`.
* `requestError` : the request raised `httpx.RequestError`
  (network/connection failure, timeout).
* `otherError` : any other exception during the attempt. -/
inductive HunterOutcome where
  | success (dataScore : Option (Option Int))
  | httpStatusError
  | requestError
  | otherError
  deriving DecidableEq, Repr

/-- The `{"score": ..., "status": ...}` dictionary returned by
`verify_email_hunter`. -/
structure VResult where
  score : Int
  status : VStatus
  deriving DecidableEq, Repr

/-- `HUNTER_API_KEY = os.environ.get("HUNTER_IO_API_KEY", "MOCK_KEY_IF_NOT_SET")`
(line 28): the key is this sentinel when the environment variable is unset.
The guard at line 103 treats an empty (falsy) or sentinel-valued key as
"no credential configured". -/
def hunterKeyMissing (key : String) : Bool :=
  key = "" || key = "MOCK_KEY_IF_NOT_SET"

/-- `verify_email_hunter` (main.py lines 99-127).  Returns the list of
emails for which an external HTTP request was issued (empty in mock mode,
a singleton otherwise — exactly one attempt is made) together with the
score/status result.  Total: every branch returns a `VResult`. -/
def verify_email_hunter (key : String) (email : String)
    (outcome : HunterOutcome) : List String × VResult :=
  if hunterKeyMissing key then
    ([], ⟨50, VStatus.mocked_key⟩)
  else
    ([email],
      match outcome with
      | HunterOutcome.success (some (some s)) => ⟨s, VStatus.verified⟩
      | HunterOutcome.success (some none) => ⟨50, VStatus.verified⟩
      | HunterOutcome.success none => ⟨48, VStatus.unexpected_error⟩
      | HunterOutcome.httpStatusError => ⟨40, VStatus.api_error⟩
      | HunterOutcome.requestError => ⟨45, VStatus.network_error⟩
      | HunterOutcome.otherError => ⟨48, VStatus.unexpected_error⟩)

/-- A row of the `contacts` table (SQLAlchemy model `Contact`,
main.py lines 63-71). -/
structure Contact where
  id : Nat
  first_name : String
  last_name : String
  email : String
  phone : Option String
  hunter_score : Option Int
  deriving DecidableEq, Repr

/-- Pydantic schema `ContactCreate` (lines 75-79): the request body of
`POST /contacts` and of `PUT /contacts/{id}`.  It has no `hunter_score`
field; unknown keys of the body are ignored by pydantic. -/
structure ContactCreate where
  first_name : String
  last_name : String
  email : String
  phone : Option String
  deriving DecidableEq, Repr

/-- Pydantic schema `ContactUpdate` (lines 81-86): the request body of
`PATCH /contacts/{id}`.  A field is `some v` when the client sent it
(it then survives `model_dump(exclude_unset=True)`) and `none` when the
client omitted it.  It has no `hunter_score` field. -/
structure ContactUpdate where
  first_name : Option String
  last_name : Option String
  email : Option String
  phone : Option String
  deriving DecidableEq, Repr

/-- The persistent store: the `contacts` table rows plus SQLite's
autoincrement counter for the integer primary key `id`. -/
structure DB where
  contacts : List Contact
  nextId : Nat
  deriving DecidableEq, Repr

/-- An `HTTPException(status_code, detail)` raised by a handler. -/
structure ApiError where
  status_code : Nat
  detail : String
  deriving DecidableEq, Repr

/-- `select(Contact).where(Contact.email == e) ... .first()`. -/
def find_by_email (db : DB) (e : String) : Option Contact :=
  db.contacts.find? (fun c => c.email = e)

/-- `select(Contact).where(Contact.id == cid) ... .first()`. -/
def find_by_id (db : DB) (cid : Nat) : Option Contact :=
  db.contacts.find? (fun c => c.id = cid)

/-- In-place ORM mutation of the row with the given id, then `commit`. -/
def replaceById (db : DB) (cid : Nat) (c : Contact) : DB :=
  { db with contacts := db.contacts.map (fun x => if x.id = cid then c else x) }

/-- `create_contact` — `POST /contacts` (main.py lines 191-225).
Verification runs first (its request is issued even when the email then
proves to be a duplicate), then the uniqueness check, then the insert with
the id drawn from the autoincrement counter. -/
def create_contact (key : String) (outcome : HunterOutcome) (db : DB)
    (contact_in : ContactCreate) :
    List String × Except ApiError Contact × DB :=
  let v := verify_email_hunter key contact_in.email outcome
  match find_by_email db contact_in.email with
  | some _ =>
      (v.1,
       Except.error ⟨409,
         "Contact with email " ++ contact_in.email ++ " already exists."⟩,
       db)
  | none =>
      let c : Contact :=
        ⟨db.nextId, contact_in.first_name, contact_in.last_name,
         contact_in.email, contact_in.phone, some v.2.score⟩
      (v.1, Except.ok c, ⟨db.contacts ++ [c], db.nextId + 1⟩)

/-- `read_contacts` — `GET /contacts?skip=&limit=` (main.py lines 228-238):
`SELECT * FROM contacts ORDER BY id LIMIT limit OFFSET skip`. -/
def read_contacts (db : DB) (skip limit : Nat) : List Contact :=
  (((db.contacts.insertionSort (fun a b => a.id ≤ b.id)).drop skip).take limit)

/-- `read_contact` — `GET /contacts/{id}` (main.py lines 241-253). -/
def read_contact (db : DB) (cid : Nat) : Except ApiError Contact :=
  match find_by_id db cid with
  | none => Except.error ⟨404, "Contact not found"⟩
  | some c => Except.ok c

/-- `update_contact_put` — `PUT /contacts/{id}` (main.py lines 256-299).
Fetch; 404 if absent.  If the email changed: conflict check over the whole
table (409), then re-verify and take the new score; otherwise keep the
existing score and make no verification request.  Then overwrite all four
body fields and the score, and commit. -/
def update_contact_put (key : String) (outcome : HunterOutcome) (db : DB)
    (cid : Nat) (contact_in : ContactCreate) :
    List String × Except ApiError Contact × DB :=
  match find_by_id db cid with
  | none => ([], Except.error ⟨404, "Contact not found"⟩, db)
  | some db_contact =>
      if db_contact.email ≠ contact_in.email then
        match find_by_email db contact_in.email with
        | some _ =>
            ([],
             Except.error ⟨409,
               "Email " ++ contact_in.email ++
                 " is already in use by another contact."⟩,
             db)
        | none =>
            let v := verify_email_hunter key contact_in.email outcome
            let c : Contact :=
              ⟨db_contact.id, contact_in.first_name, contact_in.last_name,
               contact_in.email, contact_in.phone, some v.2.score⟩
            (v.1, Except.ok c, replaceById db cid c)
      else
        let c : Contact :=
          ⟨db_contact.id, contact_in.first_name, contact_in.last_name,
           contact_in.email, contact_in.phone, db_contact.hunter_score⟩
        ([], Except.ok c, replaceById db cid c)

/-- The `setattr` merge loop of `update_contact_patch` (lines 337-338):
apply every field present in `update_data` over the fetched row.
`scoreOverride = some s` models `update_data['hunter_score'] = s` having
been inserted at line 334 (email-change branch only). -/
def applyPatch (c : Contact) (u : ContactUpdate) (scoreOverride : Option Int) :
    Contact :=
  { c with
    first_name := u.first_name.getD c.first_name
    last_name := u.last_name.getD c.last_name
    email := u.email.getD c.email
    phone :=
      match u.phone with
      | some v => some v
      | none => c.phone
    hunter_score :=
      match scoreOverride with
      | some s => some s
      | none => c.hunter_score }

/-- `update_contact_patch` — `PATCH /contacts/{id}` (main.py lines 302-342).
Fetch; 404 if absent.  If `email` is among the sent fields and differs from
the current one: conflict check (409), re-verify, and put the new score into
the update data; then merge all sent fields and commit. -/
def update_contact_patch (key : String) (outcome : HunterOutcome) (db : DB)
    (cid : Nat) (contact_in : ContactUpdate) :
    List String × Except ApiError Contact × DB :=
  match find_by_id db cid with
  | none => ([], Except.error ⟨404, "Contact not found"⟩, db)
  | some db_contact =>
      match contact_in.email with
      | some e =>
          if e ≠ db_contact.email then
            match find_by_email db e with
            | some _ =>
                ([],
                 Except.error ⟨409,
                   "Email " ++ e ++ " is already in use by another contact."⟩,
                 db)
            | none =>
                let v := verify_email_hunter key e outcome
                let c := applyPatch db_contact contact_in (some v.2.score)
                (v.1, Except.ok c, replaceById db cid c)
          else
            let c := applyPatch db_contact contact_in none
            ([], Except.ok c, replaceById db cid c)
      | none =>
          let c := applyPatch db_contact contact_in none
          ([], Except.ok c, replaceById db cid c)

/-- `delete_contact` — `DELETE /contacts/{id}` (main.py lines 345-358):
`DELETE FROM contacts WHERE id = cid`; 404 when `rowcount == 0`, i.e. when
no row was removed; otherwise commit and return the success message. -/
def delete_contact (db : DB) (cid : Nat) : Except ApiError String × DB :=
  if (db.contacts.filter (fun c => ¬ c.id = cid)).length = db.contacts.length then
    (Except.error ⟨404, "Contact not found"⟩, db)
  else
    (Except.ok "Contact deleted",
     { db with contacts := db.contacts.filter (fun c => ¬ c.id = cid) })

/-- The empty store right after `Base.metadata.create_all` (SQLite integer
primary keys start at 1). -/
def initDB : DB := ⟨[], 1⟩

/-- The store after the startup seeding of an empty table
(main.py lines 161-176). -/
def seededDB : DB :=
  ⟨[⟨1, "Alice", "Smith", "alice@example.com", some "555-1234", some 85⟩,
    ⟨2, "Bob", "Johnson", "bob.j@test.org", none, some 45⟩], 3⟩

/-- The store states reachable through the service: the fresh or seeded
table, followed by any sequence of create / put / patch / delete requests. -/
inductive Reachable : DB → Prop where
  | init : Reachable initDB
  | seeded : Reachable seededDB
  | create (key : String) (o : HunterOutcome) (db : DB) (cin : ContactCreate) :
      Reachable db → Reachable (create_contact key o db cin).2.2
  | put (key : String) (o : HunterOutcome) (db : DB) (cid : Nat)
      (cin : ContactCreate) :
      Reachable db → Reachable (update_contact_put key o db cid cin).2.2
  | patch (key : String) (o : HunterOutcome) (db : DB) (cid : Nat)
      (uin : ContactUpdate) :
      Reachable db → Reachable (update_contact_patch key o db cid uin).2.2
  | delete (db : DB) (cid : Nat) :
      Reachable db → Reachable (delete_contact db cid).2

/-- At most one row holds any given email. -/
def EmailUnique (db : DB) : Prop :=
  db.contacts.Pairwise (fun a b => a.email ≠ b.email)

/-- Well-formedness maintained by the service: distinct primary keys, all
below the autoincrement counter, and distinct emails. -/
def DBWF (db : DB) : Prop :=
  db.contacts.Pairwise (fun a b => a.id ≠ b.id) ∧
    (∀ c ∈ db.contacts, c.id < db.nextId) ∧ EmailUnique db

/-- Number of stored rows holding the given email. -/
def countEmail (db : DB) (e : String) : Nat :=
  (db.contacts.filter (fun c => c.email = e)).length

/-! ## Helper lemmas about the store -/

theorem find_by_email_eq_none_iff {db : DB} {e : String} :
    find_by_email db e = none ↔ ∀ c ∈ db.contacts, c.email ≠ e := by
  simp [find_by_email, List.find?_eq_none]

theorem find_by_email_mem {db : DB} {e : String} {c : Contact}
    (h : find_by_email db e = some c) : c ∈ db.contacts ∧ c.email = e := by
  refine ⟨List.mem_of_find?_eq_some h, ?_⟩
  simpa using List.find?_some h

theorem find_by_id_eq_none_iff {db : DB} {cid : Nat} :
    find_by_id db cid = none ↔ ∀ c ∈ db.contacts, c.id ≠ cid := by
  simp [find_by_id, List.find?_eq_none]

theorem find_by_id_mem {db : DB} {cid : Nat} {a : Contact}
    (h : find_by_id db cid = some a) : a ∈ db.contacts ∧ a.id = cid := by
  refine ⟨List.mem_of_find?_eq_some h, ?_⟩
  simpa using List.find?_some h

/-! ## C5 — mock mode is deterministic -/

/-- C5: With no credential configured, verification is deterministic:
for every input email and whatever the external world would have done, the
result is score 50 with the `mocked_key` status, and no external request is
issued.  In particular any two runs on any two emails agree. -/
theorem mock_mode_deterministic (key e : String) (o : HunterOutcome)
    (h : hunterKeyMissing key = true) :
    verify_email_hunter key e o = ([], ⟨50, VStatus.mocked_key⟩) := by
  simp [verify_email_hunter, h]

theorem mock_mode_deterministic_witness :
    verify_email_hunter "MOCK_KEY_IF_NOT_SET" "a@b.c" HunterOutcome.otherError
      = ([], ⟨50, VStatus.mocked_key⟩) :=
  mock_mode_deterministic "MOCK_KEY_IF_NOT_SET" "a@b.c"
    HunterOutcome.otherError (by decide)

/-! ## C6 — score extraction on an HTTP-success response -/

/-- C6 counterexample:  With a credential configured, an HTTP-success
response whose body yields no `data` object (for instance the empty JSON
object `\x7b\x7d`, where the subscript `data['data']` raises `KeyError`)
does **not** produce a VERIFIED result with the default score 50: the
exception falls through to the generic handler, which returns score 48 with
the `unexpected_error` status. -/
theorem verified_default_counterexample :
    (verify_email_hunter "REAL_KEY" "x@y.z" (HunterOutcome.success none)).2
        = ⟨48, VStatus.unexpected_error⟩ ∧
      (verify_email_hunter "REAL_KEY" "x@y.z" (HunterOutcome.success none)).2
        ≠ ⟨50, VStatus.verified⟩ := by
  constructor <;> decide

/-- C6 amended:  With a credential configured, an HTTP-success response
whose body yields a `data` object gives status VERIFIED with the extracted
score, defaulting to 50 when the `score` field is absent from that object;
when the body yields no `data` object at all the generic fallback applies
instead (score 48, `unexpected_error`). -/
theorem verified_score_extraction (key e : String) (d : Option Int)
    (h : hunterKeyMissing key = false) :
    verify_email_hunter key e (HunterOutcome.success (some d))
        = ([e], ⟨d.getD 50, VStatus.verified⟩) ∧
      verify_email_hunter key e (HunterOutcome.success none)
        = ([e], ⟨48, VStatus.unexpected_error⟩) := by
  cases d <;> simp [verify_email_hunter, h]

theorem verified_score_extraction_witness :
    verify_email_hunter "REAL_KEY" "x@y.z" (HunterOutcome.success (some none))
      = (["x@y.z"], ⟨50, VStatus.verified⟩) :=
  (verified_score_extraction "REAL_KEY" "x@y.z" none (by decide)).1

/-! ## C2 — verification is total and absorbed into the score -/

/-- C2:  The verification client is total over every outcome of the
external attempt: with a credential configured, an HTTP error response
yields score 40 (`api_error`), a network/connection failure yields 45
(`network_error`), and any other unexpected failure yields 48
(`unexpected_error`) — always a score/status pair, never a propagated
error.  Consequently no create or update request fails because of
verification: whatever the outcome, `create_contact` either succeeds or
fails only with Conflict (409), and the update handlers fail only with
NotFound (404) or Conflict (409). -/
theorem verification_total_and_absorbed :
    (∀ key e, hunterKeyMissing key = false →
        (verify_email_hunter key e HunterOutcome.httpStatusError).2
            = ⟨40, VStatus.api_error⟩ ∧
          (verify_email_hunter key e HunterOutcome.requestError).2
            = ⟨45, VStatus.network_error⟩ ∧
          (verify_email_hunter key e HunterOutcome.otherError).2
            = ⟨48, VStatus.unexpected_error⟩) ∧
      (∀ key o db cin,
        (∃ c, (create_contact key o db cin).2.1 = Except.ok c) ∨
          (∃ err, (create_contact key o db cin).2.1 = Except.error err ∧
            err.status_code = 409)) ∧
      (∀ key o db cid cin,
        (∃ c, (update_contact_put key o db cid cin).2.1 = Except.ok c) ∨
          (∃ err, (update_contact_put key o db cid cin).2.1 = Except.error err ∧
            (err.status_code = 404 ∨ err.status_code = 409))) ∧
      (∀ key o db cid uin,
        (∃ c, (update_contact_patch key o db cid uin).2.1 = Except.ok c) ∨
          (∃ err,
            (update_contact_patch key o db cid uin).2.1 = Except.error err ∧
              (err.status_code = 404 ∨ err.status_code = 409))) := by
  refine ⟨?_, ?_, ?_, ?_⟩
  · intro key e h
    refine ⟨?_, ?_, ?_⟩ <;> simp [verify_email_hunter, h]
  · intro key o db cin
    unfold create_contact
    split
    · exact Or.inr ⟨_, rfl, rfl⟩
    · exact Or.inl ⟨_, rfl⟩
  · intro key o db cid cin
    unfold update_contact_put
    split
    · exact Or.inr ⟨_, rfl, Or.inl rfl⟩
    · split
      · split
        · exact Or.inr ⟨_, rfl, Or.inr rfl⟩
        · exact Or.inl ⟨_, rfl⟩
      · exact Or.inl ⟨_, rfl⟩
  · intro key o db cid uin
    unfold update_contact_patch
    split
    · exact Or.inr ⟨_, rfl, Or.inl rfl⟩
    · split
      · split
        · split
          · exact Or.inr ⟨_, rfl, Or.inr rfl⟩
          · exact Or.inl ⟨_, rfl⟩
        · exact Or.inl ⟨_, rfl⟩
      · exact Or.inl ⟨_, rfl⟩

theorem verification_total_and_absorbed_witness :
    (verify_email_hunter "K" "e@x.y" HunterOutcome.httpStatusError).2
      = ⟨40, VStatus.api_error⟩ :=
  (verification_total_and_absorbed.1 "K" "e@x.y" (by decide)).1

/-! ## C7 — delete semantics -/

theorem delete_notFound_of_find_none {db : DB} {cid : Nat}
    (h : find_by_id db cid = none) :
    delete_contact db cid = (Except.error ⟨404, "Contact not found"⟩, db) := by
  have hall : ∀ c ∈ db.contacts, ¬ c.id = cid :=
    find_by_id_eq_none_iff.mp h
  have hfil : db.contacts.filter (fun c => ¬ c.id = cid) = db.contacts := by
    rw [List.filter_eq_self]
    intro a ha
    simpa using hall a ha
  unfold delete_contact
  rw [hfil, if_pos rfl]

/-- C7:  Deleting an id with no matching record fails with NotFound
(404) and changes nothing; deleting an existing id succeeds, removes the
record (no row with that id remains), and a second delete of the same id
then fails with NotFound leaving the store unchanged. -/
theorem delete_contact_semantics :
    (∀ db cid, find_by_id db cid = none →
        delete_contact db cid = (Except.error ⟨404, "Contact not found"⟩, db)) ∧
      (∀ db cid c, find_by_id db cid = some c →
        (delete_contact db cid).1 = Except.ok "Contact deleted" ∧
          find_by_id (delete_contact db cid).2 cid = none ∧
          delete_contact (delete_contact db cid).2 cid
            = (Except.error ⟨404, "Contact not found"⟩,
               (delete_contact db cid).2)) := by
  constructor
  · intro db cid h
    exact delete_notFound_of_find_none h
  · intro db cid c h
    obtain ⟨hmem, hcid⟩ := find_by_id_mem h
    have hlt : (db.contacts.filter (fun x => ¬ x.id = cid)).length
        < db.contacts.length := by
      rw [List.length_filter_lt_length_iff_exists]
      refine ⟨c, hmem, ?_⟩
      simp [hcid]
    have hne : ¬ (db.contacts.filter (fun x => ¬ x.id = cid)).length
        = db.contacts.length := Nat.ne_of_lt hlt
    have hdel : delete_contact db cid
        = (Except.ok "Contact deleted",
           { db with contacts := db.contacts.filter (fun x => ¬ x.id = cid) }) := by
      unfold delete_contact
      rw [if_neg hne]
    have hgone :
        find_by_id
          ({ db with contacts := db.contacts.filter (fun x => ¬ x.id = cid) } : DB)
          cid = none := by
      refine find_by_id_eq_none_iff.mpr ?_
      intro x hx
      have := (List.mem_filter.mp hx).2
      simpa using this
    refine ⟨by rw [hdel], by rw [hdel]; exact hgone, ?_⟩
    rw [hdel]
    exact delete_notFound_of_find_none hgone

theorem delete_contact_semantics_witness :
    (delete_contact seededDB 1).1 = Except.ok "Contact deleted" ∧
      find_by_id (delete_contact seededDB 1).2 1 = none :=
  ⟨(delete_contact_semantics.2 seededDB 1
      ⟨1, "Alice", "Smith", "alice@example.com", some "555-1234", some 85⟩
      (by decide)).1,
   (delete_contact_semantics.2 seededDB 1
      ⟨1, "Alice", "Smith", "alice@example.com", some "555-1234", some 85⟩
      (by decide)).2.1⟩

/-! ## C3 — same-email updates keep the score and skip verification -/

/-- C3: a full update (PUT) or partial update (PATCH) whose email equals
the contact's current email issues no verification request and stores
exactly the previous `hunter_score`, while the other supplied fields are
overwritten. -/
theorem same_email_update_preserves_score
    (key : String) (o : HunterOutcome) (db : DB) (cid : Nat) :
    (∀ (cin : ContactCreate) (a : Contact), find_by_id db cid = some a →
        cin.email = a.email →
        update_contact_put key o db cid cin
          = ([], Except.ok ⟨a.id, cin.first_name, cin.last_name, cin.email,
                cin.phone, a.hunter_score⟩,
              replaceById db cid ⟨a.id, cin.first_name, cin.last_name,
                cin.email, cin.phone, a.hunter_score⟩)) ∧
      (∀ (uin : ContactUpdate) (a : Contact), find_by_id db cid = some a →
        uin.email = some a.email →
        (update_contact_patch key o db cid uin).1 = [] ∧
          ∃ c, (update_contact_patch key o db cid uin).2.1 = Except.ok c ∧
            c.hunter_score = a.hunter_score ∧
            c.first_name = uin.first_name.getD a.first_name ∧
            c.last_name = uin.last_name.getD a.last_name ∧
            c.email = a.email ∧
            (∀ v, uin.phone = some v → c.phone = some v) ∧
            (uin.phone = none → c.phone = a.phone)) := by
  constructor
  · intro cin a hid hemail
    simp [update_contact_put, hid, hemail]
  · intro uin a hid hue
    refine ⟨by simp [update_contact_patch, hid, hue], ?_⟩
    refine ⟨applyPatch a uin none, by simp [update_contact_patch, hid, hue],
      rfl, rfl, rfl, by simp [applyPatch, hue], ?_, ?_⟩
    · intro v hv
      simp [applyPatch, hv]
    · intro hv
      simp [applyPatch, hv]

theorem same_email_update_preserves_score_witness :
    update_contact_put "K" HunterOutcome.httpStatusError seededDB 1
        ⟨"Alicia", "Smith", "alice@example.com", none⟩
      = ([], Except.ok ⟨1, "Alicia", "Smith", "alice@example.com", none,
            some 85⟩,
          replaceById seededDB 1
            ⟨1, "Alicia", "Smith", "alice@example.com", none, some 85⟩) :=
  (same_email_update_preserves_score "K" HunterOutcome.httpStatusError
      seededDB 1).1
    ⟨"Alicia", "Smith", "alice@example.com", none⟩
    ⟨1, "Alice", "Smith", "alice@example.com", some "555-1234", some 85⟩
    (by decide) rfl

/-! ## C4 — conflicting email updates fail atomically -/

/-- C4: updating an existing contact (PUT or PATCH) to an email already
held by another stored contact fails with Conflict 409 and returns the
store exactly unchanged, so both records are as they were before the
request. -/
theorem conflicting_email_update_atomic
    (key : String) (o : HunterOutcome) (db : DB) (cid : Nat) :
    (∀ (cin : ContactCreate) (a b : Contact), find_by_id db cid = some a →
        a.email ≠ cin.email → find_by_email db cin.email = some b →
        update_contact_put key o db cid cin
          = ([], Except.error ⟨409, "Email " ++ cin.email ++
              " is already in use by another contact."⟩, db)) ∧
      (∀ (uin : ContactUpdate) (e : String) (a b : Contact),
        find_by_id db cid = some a → uin.email = some e → e ≠ a.email →
        find_by_email db e = some b →
        update_contact_patch key o db cid uin
          = ([], Except.error ⟨409, "Email " ++ e ++
              " is already in use by another contact."⟩, db)) := by
  constructor
  · intro cin a b hid hne hfe
    simp [update_contact_put, hid, hne, hfe]
  · intro uin e a b hid hue hne hfe
    simp [update_contact_patch, hid, hue, hne, hfe]

theorem conflicting_email_update_atomic_witness :
    update_contact_put "K" HunterOutcome.otherError seededDB 1
        ⟨"Alice", "Smith", "bob.j@test.org", none⟩
      = ([], Except.error ⟨409,
            "Email bob.j@test.org is already in use by another contact."⟩,
          seededDB) :=
  (conflicting_email_update_atomic "K" HunterOutcome.otherError seededDB 1).1
    ⟨"Alice", "Smith", "bob.j@test.org", none⟩
    ⟨1, "Alice", "Smith", "alice@example.com", some "555-1234", some 85⟩
    ⟨2, "Bob", "Johnson", "bob.j@test.org", none, some 45⟩
    (by decide) (by decide) (by decide)

/-! ## C10 — PATCH with an unchanged email value -/

/-- C10: a PATCH request whose email field is present but equal to the
contact's current email is treated as no email change: with no hypothesis
on the other stored emails the request succeeds (so no conflict check can
fail), no verification request is issued, and `hunter_score` is
preserved. -/
theorem patch_same_email_value_no_reverify
    (key : String) (o : HunterOutcome) (db : DB) (cid : Nat)
    (uin : ContactUpdate) (a : Contact)
    (hid : find_by_id db cid = some a) (hue : uin.email = some a.email) :
    (update_contact_patch key o db cid uin).1 = [] ∧
      ∃ c, (update_contact_patch key o db cid uin).2.1 = Except.ok c ∧
        c.hunter_score = a.hunter_score := by
  refine ⟨by simp [update_contact_patch, hid, hue], ?_⟩
  exact ⟨applyPatch a uin none, by simp [update_contact_patch, hid, hue], rfl⟩

theorem patch_same_email_value_no_reverify_witness :
    (update_contact_patch "K" HunterOutcome.httpStatusError seededDB 1
        ⟨none, none, some "alice@example.com", some "555-0000"⟩).1 = [] ∧
      ∃ c, (update_contact_patch "K" HunterOutcome.httpStatusError seededDB 1
          ⟨none, none, some "alice@example.com", some "555-0000"⟩).2.1
            = Except.ok c ∧
        c.hunter_score = some 85 :=
  patch_same_email_value_no_reverify "K" HunterOutcome.httpStatusError
    seededDB 1 ⟨none, none, some "alice@example.com", some "555-0000"⟩
    ⟨1, "Alice", "Smith", "alice@example.com", some "555-1234", some 85⟩
    (by decide) rfl

/-! ## C9 — hunter_score never comes from the request body -/

/-- C9: `hunter_score` is never set from direct user input.  The request
schemas `ContactCreate` and `ContactUpdate` carry no `hunter_score` field
(pydantic discards unknown body keys), and every successfully stored score
is either the contact's previous score or the score produced by the
verification flow. -/
theorem hunter_score_only_from_verification
    (key : String) (o : HunterOutcome) (db : DB) :
    (∀ (cin : ContactCreate) (c : Contact),
        (create_contact key o db cin).2.1 = Except.ok c →
        c.hunter_score = some (verify_email_hunter key cin.email o).2.score) ∧
      (∀ (cid : Nat) (cin : ContactCreate) (c : Contact),
        (update_contact_put key o db cid cin).2.1 = Except.ok c →
        (∃ a, find_by_id db cid = some a ∧ c.hunter_score = a.hunter_score) ∨
          c.hunter_score
            = some (verify_email_hunter key cin.email o).2.score) ∧
      (∀ (cid : Nat) (uin : ContactUpdate) (c : Contact),
        (update_contact_patch key o db cid uin).2.1 = Except.ok c →
        (∃ a, find_by_id db cid = some a ∧ c.hunter_score = a.hunter_score) ∨
          (∃ e, uin.email = some e ∧
            c.hunter_score = some (verify_email_hunter key e o).2.score)) := by
  refine ⟨?_, ?_, ?_⟩
  · intro cin c h
    cases hfe : find_by_email db cin.email with
    | some b => simp [create_contact, hfe] at h
    | none =>
      simp [create_contact, hfe] at h
      subst h
      rfl
  · intro cid cin c h
    cases hid : find_by_id db cid with
    | none => simp [update_contact_put, hid] at h
    | some a =>
      by_cases hne : a.email = cin.email
      · left
        simp [update_contact_put, hid, hne] at h
        exact ⟨a, rfl, by subst h; rfl⟩
      · cases hfe : find_by_email db cin.email with
        | some b => simp [update_contact_put, hid, hne, hfe] at h
        | none =>
          right
          simp [update_contact_put, hid, hne, hfe] at h
          subst h
          rfl
  · intro cid uin c h
    cases hid : find_by_id db cid with
    | none => simp [update_contact_patch, hid] at h
    | some a =>
      cases hue : uin.email with
      | none =>
        left
        simp [update_contact_patch, hid, hue] at h
        exact ⟨a, rfl, by subst h; rfl⟩
      | some e =>
        by_cases hne : e = a.email
        · left
          simp [update_contact_patch, hid, hue, hne] at h
          exact ⟨a, rfl, by subst h; rfl⟩
        · cases hfe : find_by_email db e with
          | some b => simp [update_contact_patch, hid, hue, hne, hfe] at h
          | none =>
            right
            simp [update_contact_patch, hid, hue, hne, hfe] at h
            exact ⟨e, rfl, by subst h; rfl⟩

theorem hunter_score_only_from_verification_witness :
    (create_contact "" HunterOutcome.otherError seededDB
        ⟨"Cara", "Lee", "c@l.io", none⟩).2.1
      = Except.ok ⟨3, "Cara", "Lee", "c@l.io", none, some 50⟩ ∧
    (⟨3, "Cara", "Lee", "c@l.io", none, some 50⟩ : Contact).hunter_score
      = some (verify_email_hunter "" "c@l.io" HunterOutcome.otherError).2.score :=
  ⟨rfl,
   (hunter_score_only_from_verification "" HunterOutcome.otherError seededDB).1
     ⟨"Cara", "Lee", "c@l.io", none⟩
     ⟨3, "Cara", "Lee", "c@l.io", none, some 50⟩ rfl⟩

/-! ## C8 — listing returns a sorted contiguous slice -/

instance : IsTotal Contact (fun a b => a.id ≤ b.id) :=
  ⟨fun a b => Nat.le_total a.id b.id⟩

instance : IsTrans Contact (fun a b => a.id ≤ b.id) :=
  ⟨fun _ _ _ hab hbc => Nat.le_trans hab hbc⟩

/-- C8: for every store state and every skip and limit, the list operation
returns the contiguous slice (positions skip through skip+limit-1) of the
stored contacts sorted by id ascending, and the returned sequence is itself
sorted by id ascending. -/
theorem read_contacts_sorted_slice (db : DB) (skip limit : Nat) :
    ∃ sorted : List Contact,
      sorted.Perm db.contacts ∧
        List.Sorted (fun a b => a.id ≤ b.id) sorted ∧
        read_contacts db skip limit = (sorted.drop skip).take limit ∧
        List.Sorted (fun a b => a.id ≤ b.id) (read_contacts db skip limit) := by
  refine ⟨db.contacts.insertionSort (fun a b => a.id ≤ b.id),
    List.perm_insertionSort _ _, List.sorted_insertionSort _ _, rfl, ?_⟩
  have hsub : (read_contacts db skip limit).Sublist
      (db.contacts.insertionSort (fun a b => a.id ≤ b.id)) := by
    unfold read_contacts
    exact (List.take_sublist _ _).trans (List.drop_sublist _ _)
  exact List.Pairwise.sublist hsub (List.sorted_insertionSort _ _)

/-! ## C1 — email uniqueness is an invariant of the store -/

theorem filter_email_length_le_one {l : List Contact}
    (h : l.Pairwise (fun a b => a.email ≠ b.email)) (e : String) :
    (l.filter (fun c => c.email = e)).length ≤ 1 := by
  induction l with
  | nil => simp
  | cons a t ih =>
    obtain ⟨ha, ht⟩ := List.pairwise_cons.mp h
    by_cases hae : a.email = e
    · have hnil : t.filter (fun c => c.email = e) = [] := by
        rw [List.filter_eq_nil_iff]
        intro b hb
        simp only [decide_eq_true_eq]
        intro hbe
        exact (ha b hb) (hae.trans hbe.symm)
      simp [List.filter_cons, hae, hnil]
    · simp only [List.filter_cons, hae, decide_False, if_false]
      exact ih ht

theorem countEmail_eq_one_of_found {db : DB} {e : String} {c : Contact}
    (hU : EmailUnique db) (h : find_by_email db e = some c) :
    countEmail db e = 1 := by
  have hle := filter_email_length_le_one hU e
  obtain ⟨hm, he⟩ := find_by_email_mem h
  have hmem : c ∈ db.contacts.filter (fun x => x.email = e) :=
    List.mem_filter.mpr ⟨hm, by simp [he]⟩
  have hpos : 0 < (db.contacts.filter (fun x => x.email = e)).length :=
    List.length_pos.mpr (List.ne_nil_of_mem hmem)
  unfold countEmail
  omega

theorem email_ne_of_ne_id {db : DB} {a : Contact}
    (hU : EmailUnique db) (hmem : a ∈ db.contacts) :
    ∀ x ∈ db.contacts, x.id ≠ a.id → x.email ≠ a.email := by
  intro x hx hne
  unfold EmailUnique at hU
  by_cases hxa : x = a
  · exact absurd (congrArg Contact.id hxa) hne
  · exact hU.forall (fun _ _ h => Ne.symm h) hx hmem hxa

theorem replaceById_wf {db : DB} {cid : Nat} {c : Contact}
    (hWF : DBWF db) (hcid : c.id = cid)
    (hemail : ∀ x ∈ db.contacts, x.id ≠ cid → x.email ≠ c.email) :
    DBWF (replaceById db cid c) := by
  obtain ⟨hids, hbound, hU⟩ := hWF
  have hfid : ∀ x : Contact, (if x.id = cid then c else x).id = x.id := by
    intro x
    by_cases hx : x.id = cid
    · simp [hx, hcid]
    · simp [hx]
  refine ⟨?_, ?_, ?_⟩
  · show (db.contacts.map fun x => if x.id = cid then c else x).Pairwise _
    rw [List.pairwise_map]
    exact hids.imp (fun {x y} hxy => by simpa [hfid] using hxy)
  · intro x hx
    obtain ⟨y, hy, rfl⟩ := List.mem_map.mp hx
    show (if y.id = cid then c else y).id < db.nextId
    rw [hfid y]
    exact hbound y hy
  · show (db.contacts.map fun x => if x.id = cid then c else x).Pairwise _
    rw [List.pairwise_map]
    unfold EmailUnique at hU
    refine List.Pairwise.imp_of_mem ?_ (hids.and hU)
    intro x y hx hy hxy
    obtain ⟨hidne, hemne⟩ := hxy
    by_cases hxc : x.id = cid
    · have hyc : ¬ y.id = cid := fun hyy => hidne (hxc.trans hyy.symm)
      simp only [if_pos hxc, if_neg hyc]
      exact fun hh => (hemail y hy hyc) hh.symm
    · by_cases hyc : y.id = cid
      · simp only [if_neg hxc, if_pos hyc]
        exact hemail x hx hxc
      · simp only [if_neg hxc, if_neg hyc]
        exact hemne

theorem create_preserves_wf (key : String) (o : HunterOutcome) (db : DB)
    (cin : ContactCreate) (hWF : DBWF db) :
    DBWF (create_contact key o db cin).2.2 := by
  obtain ⟨hids, hbound, hU⟩ := hWF
  cases hfe : find_by_email db cin.email with
  | some b =>
    have hdb : (create_contact key o db cin).2.2 = db := by
      simp [create_contact, hfe]
    rw [hdb]
    exact ⟨hids, hbound, hU⟩
  | none =>
    have hnew : ∀ x ∈ db.contacts, x.email ≠ cin.email :=
      find_by_email_eq_none_iff.mp hfe
    have hdb : (create_contact key o db cin).2.2
        = ⟨db.contacts ++
            [⟨db.nextId, cin.first_name, cin.last_name, cin.email, cin.phone,
              some (verify_email_hunter key cin.email o).2.score⟩],
           db.nextId + 1⟩ := by
      simp [create_contact, hfe]
    rw [hdb]
    refine ⟨?_, ?_, ?_⟩
    · rw [List.pairwise_append]
      refine ⟨hids, by simp, ?_⟩
      intro x hx y hy
      simp only [List.mem_singleton] at hy
      subst hy
      exact Nat.ne_of_lt (hbound x hx)
    · intro x hx
      rcases List.mem_append.mp hx with hmem | hmem
      · exact Nat.lt_succ_of_lt (hbound x hmem)
      · simp only [List.mem_singleton] at hmem
        subst hmem
        exact Nat.lt_succ_self _
    · show (_ ++ _ : List Contact).Pairwise _
      rw [List.pairwise_append]
      refine ⟨hU, by simp, ?_⟩
      intro x hx y hy
      simp only [List.mem_singleton] at hy
      subst hy
      exact hnew x hx

theorem put_preserves_wf (key : String) (o : HunterOutcome) (db : DB)
    (cid : Nat) (cin : ContactCreate) (hWF : DBWF db) :
    DBWF (update_contact_put key o db cid cin).2.2 := by
  cases hid : find_by_id db cid with
  | none =>
    have hdb : (update_contact_put key o db cid cin).2.2 = db := by
      simp [update_contact_put, hid]
    rw [hdb]
    exact hWF
  | some a =>
    obtain ⟨hmem, hacid⟩ := find_by_id_mem hid
    by_cases hne : a.email = cin.email
    · have hdb : (update_contact_put key o db cid cin).2.2
          = replaceById db cid ⟨a.id, cin.first_name, cin.last_name,
              cin.email, cin.phone, a.hunter_score⟩ := by
        simp [update_contact_put, hid, hne]
      rw [hdb]
      refine replaceById_wf hWF hacid ?_
      intro x hx hxid
      show x.email ≠ cin.email
      rw [← hne]
      exact email_ne_of_ne_id hWF.2.2 hmem x hx (hacid ▸ hxid)
    · cases hfe : find_by_email db cin.email with
      | some b =>
        have hdb : (update_contact_put key o db cid cin).2.2 = db := by
          simp [update_contact_put, hid, hne, hfe]
        rw [hdb]
        exact hWF
      | none =>
        have hdb : (update_contact_put key o db cid cin).2.2
            = replaceById db cid ⟨a.id, cin.first_name, cin.last_name,
                cin.email, cin.phone,
                some (verify_email_hunter key cin.email o).2.score⟩ := by
          simp [update_contact_put, hid, hne, hfe]
        rw [hdb]
        refine replaceById_wf hWF hacid ?_
        intro x hx hxid
        exact find_by_email_eq_none_iff.mp hfe x hx

theorem patch_preserves_wf (key : String) (o : HunterOutcome) (db : DB)
    (cid : Nat) (uin : ContactUpdate) (hWF : DBWF db) :
    DBWF (update_contact_patch key o db cid uin).2.2 := by
  cases hid : find_by_id db cid with
  | none =>
    have hdb : (update_contact_patch key o db cid uin).2.2 = db := by
      simp [update_contact_patch, hid]
    rw [hdb]
    exact hWF
  | some a =>
    obtain ⟨hmem, hacid⟩ := find_by_id_mem hid
    have hpid : ∀ s, (applyPatch a uin s).id = a.id := fun _ => rfl
    cases hue : uin.email with
    | none =>
      have hdb : (update_contact_patch key o db cid uin).2.2
          = replaceById db cid (applyPatch a uin none) := by
        simp [update_contact_patch, hid, hue]
      rw [hdb]
      refine replaceById_wf hWF ((hpid none).trans hacid) ?_
      intro x hx hxid
      have hpe : (applyPatch a uin none).email = a.email := by
        simp [applyPatch, hue]
      rw [hpe]
      exact email_ne_of_ne_id hWF.2.2 hmem x hx (hacid ▸ hxid)
    | some e =>
      by_cases hne : e = a.email
      · have hdb : (update_contact_patch key o db cid uin).2.2
            = replaceById db cid (applyPatch a uin none) := by
          simp [update_contact_patch, hid, hue, hne]
        rw [hdb]
        refine replaceById_wf hWF ((hpid none).trans hacid) ?_
        intro x hx hxid
        have hpe : (applyPatch a uin none).email = e := by
          simp [applyPatch, hue]
        rw [hpe, hne]
        exact email_ne_of_ne_id hWF.2.2 hmem x hx (hacid ▸ hxid)
      · cases hfe : find_by_email db e with
        | some b =>
          have hdb : (update_contact_patch key o db cid uin).2.2 = db := by
            simp [update_contact_patch, hid, hue, hne, hfe]
          rw [hdb]
          exact hWF
        | none =>
          have hdb : (update_contact_patch key o db cid uin).2.2
              = replaceById db cid (applyPatch a uin
                  (some (verify_email_hunter key e o).2.score)) := by
            simp [update_contact_patch, hid, hue, hne, hfe]
          rw [hdb]
          refine replaceById_wf hWF
            ((hpid (some (verify_email_hunter key e o).2.score)).trans hacid) ?_
          intro x hx hxid
          have hpe : (applyPatch a uin
              (some (verify_email_hunter key e o).2.score)).email = e := by
            simp [applyPatch, hue]
          rw [hpe]
          exact find_by_email_eq_none_iff.mp hfe x hx

theorem delete_preserves_wf (db : DB) (cid : Nat) (hWF : DBWF db) :
    DBWF (delete_contact db cid).2 := by
  obtain ⟨hids, hbound, hU⟩ := hWF
  unfold delete_contact
  split
  · exact ⟨hids, hbound, hU⟩
  · exact ⟨List.Pairwise.sublist (List.filter_sublist _) hids,
      fun x hx => hbound x (List.mem_of_mem_filter hx),
      List.Pairwise.sublist (List.filter_sublist _) hU⟩

theorem reachable_wf {db : DB} (h : Reachable db) : DBWF db := by
  induction h with
  | init => exact ⟨List.Pairwise.nil, by simp [initDB], List.Pairwise.nil⟩
  | seeded =>
    refine ⟨by decide, by decide, ?_⟩
    unfold EmailUnique
    decide
  | create key o db cin _ ih => exact create_preserves_wf key o db cin ih
  | put key o db cid cin _ ih => exact put_preserves_wf key o db cid cin ih
  | patch key o db cid uin _ ih => exact patch_preserves_wf key o db cid uin ih
  | delete db cid _ ih => exact delete_preserves_wf db cid ih

/-- C1: email uniqueness is an invariant of the store.  Every reachable
store state holds at most one contact per email, and reachability is closed
under every operation, so each operation preserves the invariant.
Moreover, creating a second contact with an email already present fails
with Conflict 409, leaves the store unchanged, and the store afterwards
holds exactly one record with that email. -/
theorem email_uniqueness_invariant :
    (∀ db, Reachable db → ∀ e, countEmail db e ≤ 1) ∧
      (∀ db key o cin b, Reachable db →
        find_by_email db cin.email = some b →
        (create_contact key o db cin).2.1
            = Except.error ⟨409, "Contact with email " ++ cin.email
                ++ " already exists."⟩ ∧
          (create_contact key o db cin).2.2 = db ∧
          countEmail (create_contact key o db cin).2.2 cin.email = 1) := by
  constructor
  · intro db h e
    exact filter_email_length_le_one (reachable_wf h).2.2 e
  · intro db key o cin b h hfe
    have hU := (reachable_wf h).2.2
    have hdb : (create_contact key o db cin).2.2 = db := by
      simp [create_contact, hfe]
    refine ⟨by simp [create_contact, hfe], hdb, ?_⟩
    rw [hdb]
    exact countEmail_eq_one_of_found hU hfe

theorem email_uniqueness_invariant_witness :
    countEmail seededDB "alice@example.com" ≤ 1 ∧
      (create_contact "" HunterOutcome.otherError seededDB
          ⟨"Bob", "Jones", "alice@example.com", none⟩).2.2 = seededDB :=
  ⟨email_uniqueness_invariant.1 seededDB Reachable.seeded "alice@example.com",
   (email_uniqueness_invariant.2 seededDB "" HunterOutcome.otherError
      ⟨"Bob", "Jones", "alice@example.com", none⟩
      ⟨1, "Alice", "Smith", "alice@example.com", some "555-1234", some 85⟩
      Reachable.seeded rfl).2.1⟩

end ContactManager
